import Mathlib

/-!
Verification of the schema graph engine of the db-canvas repository.

The definitions below are a shallow embedding of the TypeScript sources:
  * `src/types/schema.ts`        — the domain data model,
  * `src/utils/errorHandling.ts` (validation part) — `validateTable`, `validateField`,
  * `src/hooks/useTables.ts`     — `addTable`, `updateTable`, `deleteTable`, `duplicateTable`,
  * `src/hooks/useConnections.ts`— `validateConnection`, `addConnection`, `deleteConnection`,
  * `src/components/DBCanvas.tsx`— the `onConnect` gesture,
  * the DBCanvas variant with the orphan-connection sweep (its snapshot-rebuild effect),
  * `src/hooks/useClipboardHandling.ts` — copy/paste of a table,
  * `src/components/Sidebar.tsx` — the structured JSON import (first pass).

JavaScript string operations used by the code are modelled on `String.data`
(`strToLower` for `toLowerCase`, `strEndsWith` for `endsWith`, `replaceFirstStr`
for one-occurrence `replace`).  Fresh uuid generation is modelled by explicit
id parameters; timestamps by an explicit `now : String` parameter.
-/

namespace DbCanvas

/-- Coordinates of a node on the canvas (`Position` in schema.ts). -/
structure Position where
  x : Int
  y : Int
deriving DecidableEq, Repr

/-- Denormalized foreign-key pointer stored on a field (`Field.foreignKey`). -/
structure ForeignKeyRef where
  tableId : String
  fieldName : String
deriving DecidableEq, Repr

/-- One column of a table (`Field` in schema.ts, the variant carrying an `id`). -/
structure Field where
  id : String
  name : String
  type : String
  notNull : Bool
  primary : Bool
  unique : Bool
  defaultValue : Option String
  foreignKey : Option ForeignKeyRef
deriving DecidableEq, Repr

/-- One entity of the diagram (`TableNode` in schema.ts). -/
structure Table where
  id : String
  name : String
  fields : List Field
  position : Position
  color : Option String
deriving DecidableEq, Repr

/-- Relationship kind of a connection (`"oneToOne" | "oneToMany"`). -/
inductive RelType where
  | oneToOne
  | oneToMany
deriving DecidableEq, Repr

/-- A directed relationship edge (`Connection` in schema.ts). -/
structure Conn where
  id : String
  sourceId : String
  targetId : String
  sourceField : String
  targetField : String
  relationshipType : RelType
deriving DecidableEq, Repr

/-- The root aggregate (`Project` in schema.ts). -/
structure Project where
  id : String
  name : String
  tables : List Table
  connections : List Conn
  createdAt : String
  updatedAt : String
deriving DecidableEq, Repr

/-- Model of JavaScript `String.prototype.toLowerCase` (character-wise lowering). -/
def strToLower (s : String) : String :=
  ⟨s.data.map Char.toLower⟩

/-- Model of JavaScript `String.prototype.endsWith`. -/
def strEndsWith (s pat : String) : Bool :=
  pat.data.isSuffixOf s.data

/-- Replacement of the first occurrence of a pattern in a character list, as
JavaScript `String.prototype.replace` with a string pattern does. -/
def replaceFirstChars (pat : List Char) : List Char → List Char
  | [] => []
  | c :: rest =>
    if pat.isPrefixOf (c :: rest) then (c :: rest).drop pat.length
    else c :: replaceFirstChars pat rest

/-- Model of JavaScript `String.prototype.replace` with a plain string pattern
(replaces the first occurrence with the empty string). -/
def replaceFirstStr (s pat : String) : String :=
  ⟨replaceFirstChars pat.data s.data⟩

/-- Test used by the identifier regex `^[a-zA-Z_][a-zA-Z0-9_]*$` on the first character. -/
def identHeadChar (c : Char) : Bool :=
  (c ≥ 'a' && c ≤ 'z') || (c ≥ 'A' && c ≤ 'Z') || c = '_'

/-- Test used by the identifier regex on the remaining characters. -/
def identTailChar (c : Char) : Bool :=
  identHeadChar c || (c ≥ '0' && c ≤ '9')

/-- Model of the regex test `/^[a-zA-Z_][a-zA-Z0-9_]*$/.test s`. -/
def identOk (s : String) : Bool :=
  match s.data with
  | [] => false
  | c :: cs => identHeadChar c && cs.all identTailChar

/-- Truthiness of `s.trim()` in JavaScript: true when some character is not whitespace. -/
def trimNonEmpty (s : String) : Bool :=
  s.data.any (fun c => !c.isWhitespace)

/-- Embedding of `validateField` from validation.ts: the list of error messages. -/
def validateField (f : Field) : List String :=
  (if !trimNonEmpty f.name then ["Field name is required"]
   else if !identOk f.name then ["Field name must be an identifier"]
   else []) ++
  (if f.type = "" then ["Field type is required"] else [])

/-- Embedding of `validateTable` from validation.ts: the list of error messages. -/
def validateTable (t : Table) : List String :=
  (if !trimNonEmpty t.name then ["Table name is required"]
   else if !identOk t.name then ["Table name must be an identifier"]
   else []) ++
  (if t.fields.length = 0 then ["Table must have at least one field"] else []) ++
  t.fields.flatMap validateField

/-- Input of `addTable`: a table definition without id and position
(the `Omit` of `TableNode` over id and position). -/
structure TableData where
  name : String
  fields : List Field
  color : Option String
deriving DecidableEq, Repr

/-- Result of a table mutation: the value returned to the caller, the surfaced
error messages, and the new project snapshot. -/
structure TableMutResult where
  returned : Option Table
  errors : List String
  project : Project
deriving DecidableEq, Repr

/-- Embedding of `addTable` from useTables.ts (validated variant): generates a
table from the definition, validates it, and appends it to the project.
`newId` stands for the generated uuid and `now` for the current timestamp. -/
def addTable (p : Project) (data : TableData) (pos : Position)
    (newId now : String) : TableMutResult :=
  let newTable : Table :=
      { id := newId
        name := data.name
        fields := data.fields
        position := pos
        color := data.color }
  let errs := validateTable newTable
  if errs.isEmpty then
    { returned := some newTable
      errors := []
      project := { p with tables := p.tables ++ [newTable], updatedAt := now } }
  else
    { returned := none, errors := errs, project := p }

/-- Result of `updateTable` / `deleteTable`: success flag, surfaced errors, snapshot. -/
structure BoolMutResult where
  ok : Bool
  errors : List String
  project : Project
deriving DecidableEq, Repr

/-- Embedding of `updateTable` from useTables.ts (validated variant): replaces
the table with matching id, re-validating the new value first. -/
def updateTable (p : Project) (t : Table) (now : String) : BoolMutResult :=
  let updatedTables := p.tables.map (fun x => if x.id = t.id then t else x)
  let errs := validateTable t
  if errs.isEmpty then
    { ok := true
      errors := []
      project := { p with tables := updatedTables, updatedAt := now } }
  else
    { ok := false, errors := errs, project := p }

/-- Embedding of `deleteTable` from useTables.ts: filters the table out of
`Project.tables` and refreshes the timestamp; nothing else is touched. -/
def deleteTable (p : Project) (tid : String) (now : String) : BoolMutResult :=
  { ok := true
    errors := []
    project := { p with
                 tables := p.tables.filter (fun t => t.id ≠ tid)
                 updatedAt := now } }

/-- Embedding of `duplicateTable` from useTables.ts: deep-copies the table with
matching id, giving the copy the fresh table id `ntid`, fresh field ids from
`nfids` (one per field, in order), the name with " (Copy)" appended, and the
position offset by (20, 20); the copy is appended to `Project.tables`. -/
def duplicateTable (p : Project) (tid : String) (ntid : String)
    (nfids : List String) (now : String) : TableMutResult :=
  match p.tables.find? (fun t => t.id = tid) with
  | none => { returned := none, errors := ["Table not found"], project := p }
  | some orig =>
    let dupFields := List.zipWith (fun f nid => { f with id := nid }) orig.fields nfids
    let newTable : Table :=
      { orig with
        id := ntid
        name := orig.name ++ " (Copy)"
        position := { x := orig.position.x + 20, y := orig.position.y + 20 }
        fields := dupFields }
    { returned := some newTable
      errors := []
      project := { p with tables := p.tables ++ [newTable], updatedAt := now } }

/-- Input of `addConnection`: a connection definition without id
(the `Omit` of `Connection` over id). -/
structure ConnData where
  sourceId : String
  targetId : String
  sourceField : String
  targetField : String
  relationshipType : RelType
deriving DecidableEq, Repr

/-- Embedding of `validateConnection` from useConnections.ts: both endpoint
tables must be found by id, and both field names must occur in the respective
table's fields. -/
def validateConnection (tables : List Table)
    (sid tid sf tf : String) : Bool :=
  match tables.find? (fun t => t.id = sid), tables.find? (fun t => t.id = tid) with
  | some st, some tt =>
    st.fields.any (fun f => f.name = sf) && tt.fields.any (fun f => f.name = tf)
  | _, _ => false

/-- Result of `addConnection`: the value returned to the caller and the new snapshot. -/
structure ConnMutResult where
  returned : Option Conn
  project : Project
deriving DecidableEq, Repr

/-- Embedding of `addConnection` from useConnections.ts: validates the
definition and, on success, appends a connection carrying the generated id
`newId` to `Project.connections`. -/
def addConnection (p : Project) (data : ConnData) (newId now : String) : ConnMutResult :=
  if validateConnection p.tables data.sourceId data.targetId
      data.sourceField data.targetField then
    let newConn : Conn :=
      { id := newId
        sourceId := data.sourceId
        targetId := data.targetId
        sourceField := data.sourceField
        targetField := data.targetField
        relationshipType := data.relationshipType }
    { returned := some newConn
      project := { p with connections := p.connections ++ [newConn], updatedAt := now } }
  else
    { returned := none, project := p }

/-- Core of `deleteConnection` from useConnections.ts, applied once the
connection being deleted (`ctd`) has been looked up: the connection is filtered
out and the foreign-key pointer is removed from every field of the source table
whose name matches the connection's source field name (and that has a pointer). -/
def deleteConnCore (ctd : Conn) (p : Project) (now : String) : Project :=
  { p with
    connections := p.connections.filter (fun c => c.id ≠ ctd.id)
    tables := p.tables.map (fun t =>
      if t.id = ctd.sourceId then
        { t with fields := t.fields.map (fun f =>
            if f.name = ctd.sourceField && f.foreignKey.isSome then
              { f with foreignKey := none }
            else f) }
      else t)
    updatedAt := now }

/-- Embedding of `deleteConnection` from useConnections.ts: looks the
connection up by id in the current snapshot and, when found, applies
`deleteConnCore`. -/
def deleteConnection (p : Project) (cid : String) (now : String) : Bool × Project :=
  match p.connections.find? (fun c => c.id = cid) with
  | none => (false, p)
  | some ctd => (true, deleteConnCore ctd p now)

/-- Parameters of a React Flow connect gesture as received by `onConnect`
in DBCanvas.tsx (all four are required to be present). -/
structure ConnectParams where
  source : String
  target : String
  sourceHandle : String
  targetHandle : String
deriving DecidableEq, Repr

/-- Extraction of the target field name from a handle identifier in
`onConnect`: a "-left" suffix marks the incoming attachment point and its
first occurrence is removed. -/
def handleFieldName (h : String) : String :=
  if strEndsWith h "-left" then replaceFirstStr h "-left" else h

/-- Embedding of the `onConnect` gesture of DBCanvas.tsx as the sequence of
project snapshots it produces, starting from the snapshot `p` the gesture saw.
After resolving the tables and checking both field names, the code first calls
`addConnection` (one snapshot transition) and then, separately, `updateTable`
on the source table with the foreign-key pointer added to the matching field
(a second snapshot transition). -/
def onConnect (p : Project) (prms : ConnectParams) (cid now1 now2 : String) :
    List Project :=
  let tf := handleFieldName prms.targetHandle
  match p.tables.find? (fun t => t.id = prms.source),
        p.tables.find? (fun t => t.id = prms.target) with
  | some st, some tt =>
    if st.fields.any (fun f => f.name = prms.sourceHandle)
        && tt.fields.any (fun f => f.name = tf) then
      let r := addConnection p
        { sourceId := prms.source
          targetId := prms.target
          sourceField := prms.sourceHandle
          targetField := tf
          relationshipType := RelType.oneToMany } cid now1
      match r.returned with
      | none => [p]
      | some _ =>
        let updatedSourceTable :=
          { st with fields := st.fields.map (fun f =>
              if f.name = prms.sourceHandle then
                { f with foreignKey := some { tableId := prms.target, fieldName := tf } }
              else f) }
        [p, r.project, (updateTable r.project updatedSourceTable now2).project]
    else [p]
  | _, _ => [p]

/-- Validity of a stored connection against a table list, as tested by the
orphan-connection sweep of the DBCanvas snapshot-rebuild effect (the same
resolution test as `validateConnection`). -/
def connRefsValid (tables : List Table) (c : Conn) : Bool :=
  validateConnection tables c.sourceId c.targetId c.sourceField c.targetField

/-- Connections classified invalid by the orphan sweep on a snapshot rebuild. -/
def sweepInvalid (p : Project) : List Conn :=
  p.connections.filter (fun c => !connRefsValid p.tables c)

/-- One `deleteConnection` call issued by the sweep: the lookup runs against
the snapshot `pre` the effect captured, while the functional update applies to
the then-current snapshot `acc`. -/
def sweepDeleteOne (pre : Project) (now : String) (acc : Project) (cid : String) :
    Project :=
  match pre.connections.find? (fun c => c.id = cid) with
  | none => acc
  | some ctd => deleteConnCore ctd acc now

/-- Embedding of the orphan-connection sweep: every connection classified
invalid gets one `deleteConnection` call, and the count of invalid connections
is surfaced in a warning when it is positive.  Returns the final snapshot and
that count. -/
def orphanSweep (p : Project) (now : String) : Project × Nat :=
  let invalid := sweepInvalid p
  (invalid.foldl (fun acc c => sweepDeleteOne p now acc c.id) p, invalid.length)

/-- Data held in transient memory by a copy gesture in useClipboardHandling.ts.
The rest-pattern destructuring copies every property of the backing table
(the adjacent code comment intends to exclude id and position, but the
pattern binds nothing, so nothing is stripped). -/
def copyTableData (t : Table) : Table := t

/-- The table definition passed to `addTable` by a paste gesture in
useClipboardHandling.ts: the held name with " (Copy)" appended and a shallow
copy of each held field. -/
def pasteTableData (held : Table) : TableData :=
  { name := held.name ++ " (Copy)"
    fields := held.fields.map (fun f => f)
    color := held.color }

/-- One flat column descriptor of the structured JSON import in Sidebar.tsx.
Absent JSON properties are `none`. -/
structure ImportedColumnDef where
  tableName : Option String
  columnName : Option String
  dataType : Option String
  columnDefault : Option String
  isNullable : Option String
  referencedTableName : Option String
  referencedColumnName : Option String
deriving DecidableEq, Repr

/-- JavaScript `a || b` on an optional string: the fallback is used when the
property is absent or the empty string. -/
def jsStringOr (o : Option String) (fallback : String) : String :=
  match o with
  | some s => if s = "" then fallback else s
  | none => fallback

/-- Field built by the first pass of `processImportedJson` in Sidebar.tsx for
one column descriptor; `k` is the number of fields already created for the
table (the fallback name is `field_` followed by `k + 1`) and `fid` the
generated uuid.  The field starts with `primary := false`, `unique := false`,
and primary is switched on exactly when the lowercased name is "id". -/
def mkImportedField (cd : ImportedColumnDef) (k : Nat) (fid : String) : Field :=
  let f : Field :=
    { id := fid
      name := jsStringOr cd.columnName ("field_" ++ toString (k + 1))
      type := jsStringOr cd.dataType "text"
      notNull := cd.isNullable = some "NO"
      primary := false
      unique := false
      defaultValue := cd.columnDefault
      foreignKey := none }
  if strToLower f.name = "id" then { f with primary := true } else f

/-- One call of the table mutation API, with its generated id and timestamp
inputs made explicit. -/
inductive TableOp where
  | add (data : TableData) (pos : Position) (newId now : String)
  | update (t : Table) (now : String)
deriving DecidableEq, Repr

/-- The snapshot produced by one table API call (the returned value is dropped). -/
def applyTableOp (p : Project) (op : TableOp) : Project :=
  match op with
  | .add data pos newId now => (addTable p data pos newId now).project
  | .update t now => (updateTable p t now).project

/-- The snapshot produced by a sequence of table API calls. -/
def applyTableOps (p : Project) (ops : List TableOp) : Project :=
  ops.foldl applyTableOp p

/-- A field list with at most one field flagged primary. -/
def fieldsAtMostOnePrimary (fs : List Field) : Prop :=
  (fs.filter (fun f => f.primary)).length ≤ 1

/-- A table with at most one primary field (the single-primary invariant). -/
def atMostOnePrimary (t : Table) : Prop :=
  fieldsAtMostOnePrimary t.fields

/-- The table value carried by a mutation satisfies the single-primary shape. -/
def opArgAtMostOnePrimary (op : TableOp) : Prop :=
  match op with
  | .add data _ _ _ => fieldsAtMostOnePrimary data.fields
  | .update t _ => atMostOnePrimary t

/-- Resolution of a table id plus field name against a table list, as the
spec means it: some listed table carries the id and one of its fields the name. -/
def resolves (tables : List Table) (tid fname : String) : Prop :=
  ∃ t, t ∈ tables ∧ t.id = tid ∧ ∃ f, f ∈ t.fields ∧ f.name = fname

instance (tables : List Table) (tid fname : String) :
    Decidable (resolves tables tid fname) := by
  unfold resolves
  infer_instance

/-! Helper lemmas about lookups, signatures and validation. -/

/-- Lookup by a key that is unique in the list returns the listed element itself. -/
theorem find?_key_eq_of_nodup {α β : Type} [DecidableEq β] {l : List α} {g : α → β}
    (hnd : (l.map g).Nodup) {x : α} (hx : x ∈ l) {k : β} (hk : g x = k) :
    l.find? (fun y => g y = k) = some x := by
  induction l with
  | nil => cases hx
  | cons a as ih =>
    rcases List.mem_cons.mp hx with rfl | hmem
    · exact List.find?_cons_of_pos _ (by simp [hk])
    · have hne : g a ≠ k := by
        intro he
        have : g a ∈ as.map g := he ▸ hk ▸ List.mem_map_of_mem g hmem
        exact (List.nodup_cons.mp (by simpa using hnd)).1 this
      rw [List.find?_cons_of_neg _ (by simp [hne]),
        ih (List.nodup_cons.mp (by simpa using hnd)).2 hmem]

/-- Setting fresh ids on a field list, pairwise, yields exactly the fresh ids. -/
theorem zipWith_setId_map_id (fs : List Field) (ids : List String)
    (h : ids.length = fs.length) :
    (List.zipWith (fun f nid => { f with id := nid }) fs ids).map (fun f => f.id) = ids := by
  induction fs generalizing ids with
  | nil => cases ids with
    | nil => rfl
    | cons i is => simp at h
  | cons f fs ih =>
    cases ids with
    | nil => simp at h
    | cons i is => simpa using ih is (by simpa using h)

/-- Setting fresh ids on a field list leaves the foreign-key pointers untouched. -/
theorem zipWith_setId_map_fk (fs : List Field) (ids : List String)
    (h : ids.length = fs.length) :
    (List.zipWith (fun f nid => { f with id := nid }) fs ids).map (fun f => f.foreignKey)
      = fs.map (fun f => f.foreignKey) := by
  induction fs generalizing ids with
  | nil => rfl
  | cons f fs ih =>
    cases ids with
    | nil => simp at h
    | cons i is => simpa using ih is (by simpa using h)

/-- Signature of a table: its id together with its field names.  Connection
validity only depends on this part of a table list. -/
def tableSig (t : Table) : String × List String :=
  (t.id, t.fields.map (fun f => f.name))

/-- Signatures of a table list. -/
def tablesSig (ts : List Table) : List (String × List String) :=
  ts.map tableSig

/-- Resolution re-read on signatures. -/
theorem resolves_iff_sig (ts : List Table) (tid fname : String) :
    resolves ts tid fname ↔ ∃ s, s ∈ tablesSig ts ∧ s.1 = tid ∧ fname ∈ s.2 := by
  constructor
  · rintro ⟨t, hmem, hid, f, hf, hn⟩
    exact ⟨tableSig t, List.mem_map_of_mem _ hmem, hid,
      hn ▸ List.mem_map_of_mem _ hf⟩
  · rintro ⟨s, hmem, hid, hname⟩
    rcases List.mem_map.mp hmem with ⟨t, htmem, rfl⟩
    rcases List.mem_map.mp hname with ⟨f, hf, hn⟩
    exact ⟨t, htmem, hid, f, hf, hn⟩

/-- Resolution is invariant under signature-preserving table transformations. -/
theorem resolves_congr_sig {ts₁ ts₂ : List Table} (h : tablesSig ts₁ = tablesSig ts₂)
    (tid fname : String) : resolves ts₁ tid fname ↔ resolves ts₂ tid fname := by
  rw [resolves_iff_sig, resolves_iff_sig, h]

/-- One half of the connection validity test: the table found by id carries
the field name. -/
def lookupFieldOk (tables : List Table) (tid fname : String) : Bool :=
  match tables.find? (fun t => t.id = tid) with
  | some t => t.fields.any (fun f => f.name = fname)
  | none => false

/-- The connection validity test splits into its two endpoint lookups. -/
theorem validateConnection_eq_and (ts : List Table) (sid tid sf tf : String) :
    validateConnection ts sid tid sf tf
      = (lookupFieldOk ts sid sf && lookupFieldOk ts tid tf) := by
  unfold validateConnection lookupFieldOk
  cases ts.find? (fun t => t.id = sid) <;> cases ts.find? (fun t => t.id = tid) <;> simp

/-- Field lists with the same names agree on any name-based search. -/
theorem fields_any_name_congr {fs₁ fs₂ : List Field}
    (he : fs₁.map (fun f => f.name) = fs₂.map (fun f => f.name)) (fname : String) :
    fs₁.any (fun f => f.name = fname) = fs₂.any (fun f => f.name = fname) := by
  induction fs₁ generalizing fs₂ with
  | nil =>
    cases fs₂ with
    | nil => rfl
    | cons b bs => simp at he
  | cons a as ih =>
    cases fs₂ with
    | nil => simp at he
    | cons b bs =>
      simp only [List.map_cons, List.cons.injEq] at he
      simp [List.any_cons, he.1, ih he.2]

/-- The endpoint lookup only depends on the table signatures. -/
theorem lookupFieldOk_congr_sig {ts₁ ts₂ : List Table}
    (h : tablesSig ts₁ = tablesSig ts₂) (tid fname : String) :
    lookupFieldOk ts₁ tid fname = lookupFieldOk ts₂ tid fname := by
  induction ts₁ generalizing ts₂ with
  | nil =>
    cases ts₂ with
    | nil => rfl
    | cons b bs => simp [tablesSig] at h
  | cons a as ih =>
    cases ts₂ with
    | nil => simp [tablesSig] at h
    | cons b bs =>
      simp only [tablesSig, List.map_cons, List.cons.injEq] at h
      obtain ⟨hab, hrest⟩ := h
      have hid : a.id = b.id := congrArg Prod.fst hab
      have hnames : a.fields.map (fun f => f.name) = b.fields.map (fun f => f.name) :=
        congrArg Prod.snd hab
      unfold lookupFieldOk
      by_cases hmatch : a.id = tid
      · rw [List.find?_cons_of_pos _ (by simp [hmatch]),
          List.find?_cons_of_pos _ (by simp [hid ▸ hmatch])]
        exact fields_any_name_congr hnames fname
      · rw [List.find?_cons_of_neg _ (by simp [hmatch]),
          List.find?_cons_of_neg _ (by simp [hid ▸ hmatch])]
        exact ih hrest

/-- Under unique table ids, the endpoint lookup agrees with spec-level resolution. -/
theorem lookupFieldOk_iff_resolves {ts : List Table}
    (hnd : (ts.map (fun t => t.id)).Nodup) (tid fname : String) :
    lookupFieldOk ts tid fname = true ↔ resolves ts tid fname := by
  constructor
  · intro h
    unfold lookupFieldOk at h
    cases hfind : ts.find? (fun t => t.id = tid) with
    | none => rw [hfind] at h; cases h
    | some t =>
      rw [hfind] at h
      have hid : t.id = tid := by simpa using List.find?_some hfind
      have hmem : t ∈ ts := List.mem_of_find?_eq_some hfind
      rcases List.any_eq_true.mp h with ⟨f, hf, hn⟩
      exact ⟨t, hmem, hid, f, hf, by simpa using hn⟩
  · rintro ⟨t, hmem, hid, f, hf, hn⟩
    have hfind := find?_key_eq_of_nodup (g := fun t => t.id) hnd hmem hid
    unfold lookupFieldOk
    rw [hfind]
    exact List.any_eq_true.mpr ⟨f, hf, by simpa using hn⟩

/-- Under unique table ids, connection validity is exactly resolution of both
endpoints. -/
theorem validateConnection_iff_resolves {ts : List Table}
    (hnd : (ts.map (fun t => t.id)).Nodup) (sid tid sf tf : String) :
    validateConnection ts sid tid sf tf = true
      ↔ (resolves ts sid sf ∧ resolves ts tid tf) := by
  rw [validateConnection_eq_and, Bool.and_eq_true,
    lookupFieldOk_iff_resolves hnd, lookupFieldOk_iff_resolves hnd]

/-- Removing a foreign-key pointer does not change a field's value when the
pointer was already absent. -/
theorem setFkNone_eq_self {f : Field} (h : f.foreignKey = none) :
    { f with foreignKey := none } = f := by
  cases f
  simp_all

/-- Clearing foreign-key pointers preserves a table's signature. -/
theorem tableSig_clearFields (t : Table) (sf : String) :
    tableSig { t with fields := t.fields.map (fun f =>
        if f.name = sf && f.foreignKey.isSome then { f with foreignKey := none } else f) }
      = tableSig t := by
  unfold tableSig
  simp only [List.map_map]
  refine congrArg _ (List.map_congr_left ?_)
  intro f _
  by_cases h : f.name = sf && f.foreignKey.isSome <;> simp [Function.comp, h]

/-- The core of connection deletion preserves all table signatures. -/
theorem tablesSig_deleteConnCore (ctd : Conn) (p : Project) (now : String) :
    tablesSig (deleteConnCore ctd p now).tables = tablesSig p.tables := by
  show tablesSig (p.tables.map _) = tablesSig p.tables
  unfold tablesSig
  rw [List.map_map]
  refine List.map_congr_left ?_
  intro t _
  by_cases hid : t.id = ctd.sourceId
  · simpa [Function.comp, hid] using tableSig_clearFields t ctd.sourceField
  · simp [Function.comp, hid]

/-- One sweep deletion, run with the pre-sweep snapshot for the lookup,
reduces to the deletion core when the target is a pre-sweep connection with
unique id. -/
theorem sweepDeleteOne_spec (p : Project) (now : String) (q : Project) (c : Conn)
    (hc : c ∈ p.connections)
    (hnd : (p.connections.map (fun d => d.id)).Nodup) :
    sweepDeleteOne p now q c.id = deleteConnCore c q now := by
  unfold sweepDeleteOne
  rw [find?_key_eq_of_nodup (g := fun d => d.id) hnd hc rfl]

/-- Folding sweep deletions over a list of pre-sweep connections removes
exactly the listed ids from the running snapshot and preserves all table
signatures. -/
theorem sweep_fold_spec (p : Project) (now : String) (L : List Conn)
    (hL : ∀ c ∈ L, c ∈ p.connections)
    (hnd : (p.connections.map (fun d => d.id)).Nodup) (q : Project) :
    (∀ d, d ∈ (L.foldl (fun acc c => sweepDeleteOne p now acc c.id) q).connections
        ↔ (d ∈ q.connections ∧ d.id ∉ L.map (fun c => c.id))) ∧
    tablesSig (L.foldl (fun acc c => sweepDeleteOne p now acc c.id) q).tables
        = tablesSig q.tables := by
  induction L generalizing q with
  | nil => simp
  | cons c cs ih =>
    have hc : c ∈ p.connections := hL c (List.mem_cons_self c cs)
    have hcs : ∀ x ∈ cs, x ∈ p.connections := fun x hx => hL x (List.mem_cons_of_mem c hx)
    simp only [List.foldl_cons]
    rw [sweepDeleteOne_spec p now q c hc hnd]
    obtain ⟨hmem, hsig⟩ := ih hcs (deleteConnCore c q now)
    refine ⟨?_, by rw [hsig, tablesSig_deleteConnCore]⟩
    intro d
    rw [hmem d]
    have hcore : d ∈ (deleteConnCore c q now).connections
        ↔ (d ∈ q.connections ∧ d.id ≠ c.id) := by
      show d ∈ q.connections.filter _ ↔ _
      simp [List.mem_filter]
    rw [hcore]
    simp only [List.map_cons, List.mem_cons, not_or]
    tauto

/-- Field validation ignores the foreign-key pointer. -/
theorem validateField_setFk (f : Field) (v : Option ForeignKeyRef) :
    validateField { f with foreignKey := v } = validateField f := rfl

/-- Mapping a validation-preserving function over the fields preserves the
flat list of field errors. -/
theorem flatMap_validateField_map (g : Field → Field)
    (hg : ∀ f, validateField (g f) = validateField f) :
    ∀ fs : List Field, (fs.map g).flatMap validateField = fs.flatMap validateField := by
  intro fs
  induction fs with
  | nil => rfl
  | cons a as ih => simp only [List.map_cons, List.flatMap_cons, hg a, ih]

/-- Table validation is unchanged by a validation-preserving field rewrite. -/
theorem validateTable_mapFields (t : Table) (g : Field → Field)
    (hg : ∀ f, validateField (g f) = validateField f) :
    validateTable { t with fields := t.fields.map g } = validateTable t := by
  unfold validateTable
  simp only [List.length_map]
  rw [flatMap_validateField_map g hg]

/-! Concrete fixtures used by witnesses and counterexamples. -/

/-- Primary-key column of the example `users` table. -/
def fldUsersId : Field :=
  { id := "f1"
    name := "id"
    type := "INT"
    notNull := true
    primary := true
    unique := false
    defaultValue := none
    foreignKey := none }

/-- Primary-key column of the example `orders` table. -/
def fldOrdersId : Field :=
  { id := "f2"
    name := "id"
    type := "INT"
    notNull := true
    primary := true
    unique := false
    defaultValue := none
    foreignKey := none }

/-- Foreign-key column of the example `orders` table, already annotated. -/
def fldUserIdFk : Field :=
  { id := "f3"
    name := "user_id"
    type := "INT"
    notNull := false
    primary := false
    unique := false
    defaultValue := none
    foreignKey := some { tableId := "t1", fieldName := "id" } }

/-- Foreign-key column of the example `orders` table, not yet annotated. -/
def fldUserIdPlain : Field :=
  { fldUserIdFk with foreignKey := none }

/-- Example `users` table. -/
def tblUsers : Table :=
  { id := "t1"
    name := "users"
    fields := [fldUsersId]
    position := { x := 0, y := 0 }
    color := none }

/-- Example `orders` table with the annotated foreign-key column. -/
def tblOrdersFk : Table :=
  { id := "t2"
    name := "orders"
    fields := [fldOrdersId, fldUserIdFk]
    position := { x := 300, y := 0 }
    color := none }

/-- Example `orders` table before any connection exists. -/
def tblOrdersPlain : Table :=
  { tblOrdersFk with fields := [fldOrdersId, fldUserIdPlain] }

/-- Example connection `orders.user_id` to `users.id`. -/
def connOrdersUsers : Conn :=
  { id := "c1"
    sourceId := "t2"
    targetId := "t1"
    sourceField := "user_id"
    targetField := "id"
    relationshipType := RelType.oneToMany }

/-- Example project holding the connection and the matching annotated field. -/
def projLinked : Project :=
  { id := "p1"
    name := "demo"
    tables := [tblUsers, tblOrdersFk]
    connections := [connOrdersUsers]
    createdAt := "T0"
    updatedAt := "T0" }

/-- Example project with both tables and no connection yet. -/
def projPlain : Project :=
  { projLinked with
    tables := [tblUsers, tblOrdersPlain]
    connections := [] }

/-- Dangling connection whose source table does not exist. -/
def connDangling : Conn :=
  { id := "c9"
    sourceId := "t9"
    targetId := "t1"
    sourceField := "x"
    targetField := "id"
    relationshipType := RelType.oneToMany }

/-- Example project with one valid and one dangling connection. -/
def projMixed : Project :=
  { projLinked with connections := [connOrdersUsers, connDangling] }

instance (fs : List Field) : Decidable (fieldsAtMostOnePrimary fs) := by
  unfold fieldsAtMostOnePrimary
  infer_instance

instance (t : Table) : Decidable (atMostOnePrimary t) := by
  unfold atMostOnePrimary
  infer_instance

instance (op : TableOp) : Decidable (opArgAtMostOnePrimary op) := by
  unfold opArgAtMostOnePrimary
  cases op <;> infer_instance

/-- Valid table with an id matching nothing in the example projects. -/
def tblGhost : Table :=
  { id := "t9"
    name := "ghost"
    fields := [{ fldUsersId with id := "f9", name := "gid" }]
    position := { x := 0, y := 0 }
    color := none }

/-- Connection definition used by witnesses: orders.user_id to users.id. -/
def connData0 : ConnData :=
  { sourceId := "t2"
    targetId := "t1"
    sourceField := "user_id"
    targetField := "id"
    relationshipType := RelType.oneToMany }

/-- Table value with two primary fields that nevertheless passes validation. -/
def tblTwoPrimary : Table :=
  { tblOrdersFk with fields := [fldOrdersId, { fldUserIdFk with primary := true }] }

/-- Lowercasing a string that starts with the literal fallback stem can never
give "id" (the lengths differ). -/
theorem strToLower_fieldPre_ne_id (s : String) : strToLower ("field_" ++ s) ≠ "id" := by
  cases s with
  | mk l =>
    intro h
    have hdata : ('f' :: 'i' :: 'e' :: 'l' :: 'd' :: '_' :: l).map Char.toLower
        = ("id" : String).data := congrArg String.data h
    have hlen := congrArg List.length hdata
    simp [List.length_map] at hlen

/-- The primary flag of an imported field is exactly the lowercased-name test
run by the import pass. -/
theorem mkImportedField_primary_iff (cd : ImportedColumnDef) (k : Nat) (fid : String) :
    (mkImportedField cd k fid).primary = true
      ↔ strToLower (jsStringOr cd.columnName ("field_" ++ toString (k + 1))) = "id" := by
  unfold mkImportedField
  by_cases h : strToLower (jsStringOr cd.columnName ("field_" ++ toString (k + 1))) = "id" <;>
    simp [h]

/-! Theorems for the claims, with their witnesses and counterexamples. -/

/-- C9: for an open project, calling updateTable with a valid table value whose
id matches no table in the project returns true, reports no error, and yields a
snapshot whose tables sequence is unchanged — only updatedAt moves. -/
theorem updateTable_missing_id_noop (p : Project) (t : Table) (now : String)
    (hvalid : validateTable t = [])
    (hmiss : ∀ x ∈ p.tables, x.id ≠ t.id) :
    updateTable p t now
      = { ok := true, errors := [], project := { p with updatedAt := now } } := by
  have hmap : p.tables.map (fun x => if x.id = t.id then t else x) = p.tables := by
    have hcongr := List.map_congr_left (l := p.tables)
      (f := fun x => if x.id = t.id then t else x) (g := fun x => x)
      (fun x hx => by simp [hmiss x hx])
    rw [hcongr, List.map_id' p.tables]
  simp [updateTable, hvalid, hmap]

/-- Witness for C9 at a concrete input. -/
theorem updateTable_missing_id_noop_witness :
    updateTable projLinked tblGhost "T1"
      = { ok := true, errors := [], project := { projLinked with updatedAt := "T1" } } :=
  updateTable_missing_id_noop projLinked tblGhost "T1" (by decide) (by decide)

/-- C1 (amended): deleteTable removes exactly the table with the given id and
touches nothing else in the snapshot — in particular the connections list and
every surviving table, with its foreign-key pointers, are unchanged; dangling
references are left for the later orphan sweep. -/
theorem deleteTable_removes_only_table (p : Project) (tid now : String)
    (hpresent : ∃ t ∈ p.tables, t.id = tid) :
    (deleteTable p tid now).ok = true ∧
    (∀ t, t ∈ (deleteTable p tid now).project.tables ↔ (t ∈ p.tables ∧ t.id ≠ tid)) ∧
    (deleteTable p tid now).project.connections = p.connections := by
  refine ⟨rfl, ?_, rfl⟩
  intro t
  show t ∈ p.tables.filter _ ↔ _
  simp [List.mem_filter]

/-- Witness for C1 at a concrete input. -/
theorem deleteTable_removes_only_table_witness :
    (deleteTable projLinked "t1" "T1").ok = true ∧
    (∀ t, t ∈ (deleteTable projLinked "t1" "T1").project.tables
        ↔ (t ∈ projLinked.tables ∧ t.id ≠ "t1")) ∧
    (deleteTable projLinked "t1" "T1").project.connections = projLinked.connections :=
  deleteTable_removes_only_table projLinked "t1" "T1" (by decide)

/-- C1 counterexample: deleting the example `users` table (id "t1") leaves the
connection targeting "t1" in the same snapshot, and leaves the foreign-key
pointer on `orders.user_id` still referencing "t1". -/
theorem deleteTable_cascade_counterexample :
    ¬((∀ c ∈ (deleteTable projLinked "t1" "T1").project.connections,
          c.sourceId ≠ "t1" ∧ c.targetId ≠ "t1") ∧
      (∀ t ∈ (deleteTable projLinked "t1" "T1").project.tables,
          ∀ f ∈ t.fields,
            Option.map (fun r => r.tableId) f.foreignKey ≠ some "t1")) := by
  decide

/-- C6 counterexample: pasting the held copy of the example orders table keeps
the held field ids — they are not disjoint from the copied table's field ids. -/
theorem paste_field_ids_counterexample :
    ¬(∀ fid ∈ (pasteTableData (copyTableData tblOrdersFk)).fields.map (fun f => f.id),
        fid ∉ tblOrdersFk.fields.map (fun f => f.id)) := by
  decide

/-- C6 (amended): the table definition passed to addTable by a paste gesture
carries the held name with " (Copy)" appended and a shallow copy of the held
fields — every field id equals the corresponding id of the copied table. -/
theorem paste_table_data_spec (held : Table) :
    (pasteTableData held).name = held.name ++ " (Copy)" ∧
    (pasteTableData held).fields = held.fields := by
  refine ⟨rfl, ?_⟩
  show held.fields.map (fun f => f) = held.fields
  exact List.map_id' held.fields

/-- C10: an imported field is flagged primary exactly when a column name is
present, non-empty, and lowercases to "id"; every imported field has
unique = false. -/
theorem imported_field_flags (cd : ImportedColumnDef) (k : Nat) (fid : String) :
    (mkImportedField cd k fid).unique = false ∧
    ((mkImportedField cd k fid).primary = true
      ↔ ∃ cn, cd.columnName = some cn ∧ cn ≠ "" ∧ strToLower cn = "id") := by
  constructor
  · unfold mkImportedField
    by_cases h : strToLower (jsStringOr cd.columnName ("field_" ++ toString (k + 1))) = "id" <;>
      simp [h]
  · rw [mkImportedField_primary_iff]
    cases hcn : cd.columnName with
    | none => simp [jsStringOr, hcn, strToLower_fieldPre_ne_id]
    | some cn =>
      by_cases hemp : cn = ""
      · simp [jsStringOr, hcn, hemp, strToLower_fieldPre_ne_id]
      · simp [jsStringOr, hcn, hemp]

/-- C7: with unique table ids, addConnection returns null and leaves the
snapshot unchanged exactly when an endpoint table id or field name fails to
resolve; otherwise it returns the connection built with the generated id and
the new snapshot's connections are the old ones with exactly that connection
appended. -/
theorem addConnection_spec (p : Project) (data : ConnData) (cid now : String)
    (hnd : (p.tables.map (fun t => t.id)).Nodup) :
    (¬(resolves p.tables data.sourceId data.sourceField ∧
        resolves p.tables data.targetId data.targetField) →
      addConnection p data cid now = { returned := none, project := p }) ∧
    ((resolves p.tables data.sourceId data.sourceField ∧
        resolves p.tables data.targetId data.targetField) →
      addConnection p data cid now
        = { returned := some
              { id := cid
                sourceId := data.sourceId
                targetId := data.targetId
                sourceField := data.sourceField
                targetField := data.targetField
                relationshipType := data.relationshipType }
            project := { p with
              connections := p.connections ++
                [{ id := cid
                   sourceId := data.sourceId
                   targetId := data.targetId
                   sourceField := data.sourceField
                   targetField := data.targetField
                   relationshipType := data.relationshipType }]
              updatedAt := now } }) := by
  have hiff := validateConnection_iff_resolves hnd data.sourceId data.targetId
    data.sourceField data.targetField
  constructor
  · intro hno
    have hv : validateConnection p.tables data.sourceId data.targetId
        data.sourceField data.targetField = false := by
      cases hvb : validateConnection p.tables data.sourceId data.targetId
          data.sourceField data.targetField
      · rfl
      · exact absurd (hiff.mp hvb) hno
    simp [addConnection, hv]
  · intro hyes
    simp [addConnection, hiff.mpr hyes]

/-- Witness for C7 at a concrete input (the success branch). -/
theorem addConnection_spec_witness :
    addConnection projPlain connData0 "c1" "T1"
      = { returned := some connOrdersUsers
          project := { projPlain with
            connections := [connOrdersUsers]
            updatedAt := "T1" } } :=
  ((addConnection_spec projPlain connData0 "c1" "T1" (by decide)).2 (by decide)).trans
    (by decide)

/-- C8: duplicating a table (unique table ids, fresh ids supplied one per
field) appends a copy whose id is the fresh table id, whose field ids are
exactly the fresh ids and disjoint from the original's, whose name gains
" (Copy)", whose position is offset by (20, 20), and whose foreign-key
pointers are copied unchanged. -/
theorem duplicateTable_spec (p : Project) (t : Table) (ntid : String)
    (nfids : List String) (now : String)
    (ht : t ∈ p.tables)
    (hnd : (p.tables.map (fun x => x.id)).Nodup)
    (hlen : nfids.length = t.fields.length)
    (hfresh : ∀ fid ∈ nfids, fid ∉ t.fields.map (fun f => f.id))
    (hntid : ntid ≠ t.id) :
    ∃ nt,
      duplicateTable p t.id ntid nfids now
        = { returned := some nt
            errors := []
            project := { p with tables := p.tables ++ [nt], updatedAt := now } } ∧
      nt.id = ntid ∧ nt.id ≠ t.id ∧
      nt.fields.map (fun f => f.id) = nfids ∧
      (∀ fid ∈ nt.fields.map (fun f => f.id), fid ∉ t.fields.map (fun f => f.id)) ∧
      nt.name = t.name ++ " (Copy)" ∧
      nt.position = { x := t.position.x + 20, y := t.position.y + 20 } ∧
      nt.fields.map (fun f => f.foreignKey) = t.fields.map (fun f => f.foreignKey) := by
  have hfind := find?_key_eq_of_nodup (g := fun x => x.id) hnd ht rfl
  unfold duplicateTable
  rw [hfind]
  refine ⟨_, rfl, rfl, hntid, zipWith_setId_map_id t.fields nfids hlen, ?_, rfl, rfl,
    zipWith_setId_map_fk t.fields nfids hlen⟩
  intro fid hf
  rw [zipWith_setId_map_id t.fields nfids hlen] at hf
  exact hfresh fid hf

/-- Witness for C8 at a concrete input. -/
theorem duplicateTable_spec_witness :
    ∃ nt,
      duplicateTable projLinked tblOrdersFk.id "t3" ["g1", "g2"] "T1"
        = { returned := some nt
            errors := []
            project := { projLinked with
              tables := projLinked.tables ++ [nt]
              updatedAt := "T1" } } ∧
      nt.id = "t3" ∧ nt.id ≠ tblOrdersFk.id ∧
      nt.fields.map (fun f => f.id) = ["g1", "g2"] ∧
      (∀ fid ∈ nt.fields.map (fun f => f.id),
          fid ∉ tblOrdersFk.fields.map (fun f => f.id)) ∧
      nt.name = tblOrdersFk.name ++ " (Copy)" ∧
      nt.position = { x := tblOrdersFk.position.x + 20, y := tblOrdersFk.position.y + 20 } ∧
      nt.fields.map (fun f => f.foreignKey) = tblOrdersFk.fields.map (fun f => f.foreignKey) :=
  duplicateTable_spec projLinked tblOrdersFk "t3" ["g1", "g2"] "T1"
    (by decide) (by decide) (by decide) (by decide) (by decide)

/-- C3: deleting a present connection (unique connection ids) succeeds,
removes exactly the connections carrying its id, and clears the foreign-key
pointer exactly on the fields of the source-id tables whose name equals the
connection's source field name; every other table, field, and pointer is
unchanged, all in the same snapshot. -/
theorem deleteConnection_spec (p : Project) (c : Conn) (now : String)
    (hc : c ∈ p.connections)
    (hnd : (p.connections.map (fun d => d.id)).Nodup) :
    (deleteConnection p c.id now).1 = true ∧
    (deleteConnection p c.id now).2.connections
      = p.connections.filter (fun d => d.id ≠ c.id) ∧
    (deleteConnection p c.id now).2.tables
      = p.tables.map (fun t =>
          if t.id = c.sourceId then
            { t with fields := t.fields.map (fun f =>
                if f.name = c.sourceField then { f with foreignKey := none } else f) }
          else t) ∧
    (deleteConnection p c.id now).2.updatedAt = now := by
  have hfind := find?_key_eq_of_nodup (g := fun d => d.id) hnd hc rfl
  unfold deleteConnection
  rw [hfind]
  refine ⟨rfl, rfl, ?_, rfl⟩
  show p.tables.map _ = p.tables.map _
  refine List.map_congr_left ?_
  intro t _
  by_cases hid : t.id = c.sourceId
  · rw [if_pos hid, if_pos hid]
    refine congrArg (fun fs => { t with fields := fs }) ?_
    refine List.map_congr_left ?_
    intro f _
    by_cases hn : f.name = c.sourceField
    · cases hfk : f.foreignKey with
      | none =>
        rw [if_neg (by simp [hn, hfk]), if_pos hn]
        exact (setFkNone_eq_self hfk).symm
      | some r => simp [hn, hfk]
    · simp [hn]
  · rw [if_neg hid, if_neg hid]

/-- Witness for C3 at a concrete input. -/
theorem deleteConnection_spec_witness :
    (deleteConnection projLinked connOrdersUsers.id "T1").1 = true ∧
    (deleteConnection projLinked connOrdersUsers.id "T1").2.connections
      = projLinked.connections.filter (fun d => d.id ≠ connOrdersUsers.id) ∧
    (deleteConnection projLinked connOrdersUsers.id "T1").2.tables
      = projLinked.tables.map (fun t =>
          if t.id = connOrdersUsers.sourceId then
            { t with fields := t.fields.map (fun f =>
                if f.name = connOrdersUsers.sourceField then { f with foreignKey := none }
                else f) }
          else t) ∧
    (deleteConnection projLinked connOrdersUsers.id "T1").2.updatedAt = "T1" :=
  deleteConnection_spec projLinked connOrdersUsers "T1" (by decide) (by decide)

/-- One table mutation whose argument satisfies the single-primary shape
preserves the invariant on every table of the snapshot. -/
theorem applyTableOp_primary (p : Project) (op : TableOp)
    (hp : ∀ t ∈ p.tables, atMostOnePrimary t)
    (hop : opArgAtMostOnePrimary op) :
    ∀ t ∈ (applyTableOp p op).tables, atMostOnePrimary t := by
  cases op with
  | add data pos newId now =>
    intro t ht
    simp only [applyTableOp, addTable] at ht
    split at ht
    · rcases List.mem_append.mp ht with h | h
      · exact hp t h
      · rcases List.mem_singleton.mp h with rfl
        exact hop
    · exact hp t ht
  | update t0 now =>
    intro t ht
    simp only [applyTableOp, updateTable] at ht
    split at ht
    · rcases List.mem_map.mp ht with ⟨x, hx, rfl⟩
      by_cases hxid : x.id = t0.id
      · rw [if_pos hxid]
        exact hop
      · rw [if_neg hxid]
        exact hp x hx
    · exact hp t ht

/-- C4 (amended): starting from a project whose tables each have at most one
primary field, any sequence of addTable / updateTable calls whose argument
tables each carry at most one primary field leaves every table of the
resulting project with at most one primary field.  (The mutation service does
not itself enforce the shape: validation never counts primary flags.) -/
theorem primary_invariant_sequence (p : Project) (ops : List TableOp)
    (hp : ∀ t ∈ p.tables, atMostOnePrimary t)
    (hops : ∀ op ∈ ops, opArgAtMostOnePrimary op) :
    ∀ t ∈ (applyTableOps p ops).tables, atMostOnePrimary t := by
  induction ops generalizing p with
  | nil => exact hp
  | cons op ops ih =>
    exact ih (applyTableOp p op)
      (applyTableOp_primary p op hp (hops op (List.mem_cons_self op ops)))
      (fun o ho => hops o (List.mem_cons_of_mem op ho))

/-- C4 counterexample: the example project satisfies the invariant, yet a
single updateTable call carrying a two-primary table value passes validation
and lands, so the resulting project violates it. -/
theorem primary_invariant_counterexample :
    (∀ t ∈ projLinked.tables, atMostOnePrimary t) ∧
    ¬(∀ t ∈ (applyTableOps projLinked [TableOp.update tblTwoPrimary "T1"]).tables,
        atMostOnePrimary t) := by
  decide

/-- Witness for C4 at a concrete input. -/
theorem primary_invariant_sequence_witness :
    atMostOnePrimary tblOrdersFk :=
  primary_invariant_sequence projLinked [TableOp.update tblOrdersFk "T1"]
    (by decide) (by decide) tblOrdersFk (by decide)

/-- C5: on a snapshot rebuild with unique connection ids and unique table ids,
the sweep classifies a connection invalid exactly when its source or target
table id resolves to no table or the referenced field name is absent there; it
issues one deletion per invalid connection, surfacing their count, and the
resulting snapshot keeps exactly the valid connections — each of which still
resolves against the resulting snapshot's tables. -/
theorem orphan_sweep_spec (p : Project) (now : String)
    (hndc : (p.connections.map (fun d => d.id)).Nodup)
    (hndt : (p.tables.map (fun t => t.id)).Nodup) :
    (∀ c, c ∈ sweepInvalid p
        ↔ (c ∈ p.connections ∧
           ¬(resolves p.tables c.sourceId c.sourceField ∧
             resolves p.tables c.targetId c.targetField))) ∧
    (orphanSweep p now).2 = (sweepInvalid p).length ∧
    (∀ c, c ∈ (orphanSweep p now).1.connections
        ↔ (c ∈ p.connections ∧
           resolves p.tables c.sourceId c.sourceField ∧
           resolves p.tables c.targetId c.targetField)) ∧
    (∀ c, c ∈ (orphanSweep p now).1.connections →
        resolves (orphanSweep p now).1.tables c.sourceId c.sourceField ∧
        resolves (orphanSweep p now).1.tables c.targetId c.targetField) := by
  have hval : ∀ c : Conn, connRefsValid p.tables c = true
      ↔ (resolves p.tables c.sourceId c.sourceField ∧
         resolves p.tables c.targetId c.targetField) := fun c =>
    validateConnection_iff_resolves hndt c.sourceId c.targetId c.sourceField c.targetField
  have hinv : ∀ c : Conn, c ∈ sweepInvalid p
      ↔ (c ∈ p.connections ∧
         ¬(resolves p.tables c.sourceId c.sourceField ∧
           resolves p.tables c.targetId c.targetField)) := by
    intro c
    unfold sweepInvalid
    rw [List.mem_filter]
    constructor
    · rintro ⟨hmem, hb⟩
      refine ⟨hmem, fun hres => ?_⟩
      rw [(hval c).mpr hres] at hb
      cases hb
    · rintro ⟨hmem, hnres⟩
      refine ⟨hmem, ?_⟩
      cases hb : connRefsValid p.tables c
      · rfl
      · exact absurd ((hval c).mp hb) hnres
  have h1 : (orphanSweep p now).1
      = (sweepInvalid p).foldl (fun acc c => sweepDeleteOne p now acc c.id) p := rfl
  obtain ⟨hconns, hsig⟩ := sweep_fold_spec p now (sweepInvalid p)
    (fun c hc => (List.mem_filter.mp hc).1) hndc p
  have hmain3 : ∀ c, c ∈ (orphanSweep p now).1.connections
      ↔ (c ∈ p.connections ∧
         resolves p.tables c.sourceId c.sourceField ∧
         resolves p.tables c.targetId c.targetField) := by
    intro c
    rw [h1, hconns c]
    constructor
    · rintro ⟨hmem, hnid⟩
      refine ⟨hmem, ?_⟩
      by_contra hnres
      exact hnid (List.mem_map_of_mem _ ((hinv c).mpr ⟨hmem, hnres⟩))
    · rintro ⟨hmem, hres⟩
      refine ⟨hmem, ?_⟩
      intro hid
      rcases List.mem_map.mp hid with ⟨d, hd, hdid⟩
      have hdc : d = c :=
        List.inj_on_of_nodup_map hndc (List.mem_filter.mp hd).1 hmem hdid
      subst hdc
      exact ((hinv d).mp hd).2 hres
  refine ⟨hinv, rfl, hmain3, ?_⟩
  intro c hcmem
  have hres := (hmain3 c).mp hcmem
  have hsig2 : tablesSig (orphanSweep p now).1.tables = tablesSig p.tables := by
    rw [h1]
    exact hsig
  exact ⟨(resolves_congr_sig hsig2 _ _).mpr hres.2.1,
    (resolves_congr_sig hsig2 _ _).mpr hres.2.2⟩

/-- Witness for C5 at a concrete input with one valid and one dangling
connection. -/
theorem orphan_sweep_spec_witness :
    (∀ c, c ∈ sweepInvalid projMixed
        ↔ (c ∈ projMixed.connections ∧
           ¬(resolves projMixed.tables c.sourceId c.sourceField ∧
             resolves projMixed.tables c.targetId c.targetField))) ∧
    (orphanSweep projMixed "T1").2 = (sweepInvalid projMixed).length ∧
    (∀ c, c ∈ (orphanSweep projMixed "T1").1.connections
        ↔ (c ∈ projMixed.connections ∧
           resolves projMixed.tables c.sourceId c.sourceField ∧
           resolves projMixed.tables c.targetId c.targetField)) ∧
    (∀ c, c ∈ (orphanSweep projMixed "T1").1.connections →
        resolves (orphanSweep projMixed "T1").1.tables c.sourceId c.sourceField ∧
        resolves (orphanSweep projMixed "T1").1.tables c.targetId c.targetField) :=
  orphan_sweep_spec projMixed "T1" (by decide) (by decide)

/-- Successful connect gestures reduce to the two-snapshot trace: first the
connection is appended, then the source table is replaced by its annotated
version. -/
theorem onConnect_success_eq (p : Project) (prms : ConnectParams)
    (cid now1 now2 : String) (st tt : Table)
    (hst : p.tables.find? (fun t => t.id = prms.source) = some st)
    (htt : p.tables.find? (fun t => t.id = prms.target) = some tt)
    (hsf : st.fields.any (fun f => f.name = prms.sourceHandle) = true)
    (htf : tt.fields.any (fun f => f.name = handleFieldName prms.targetHandle) = true)
    (hstval : validateTable st = []) :
    onConnect p prms cid now1 now2 =
      [p,
       { p with
         connections := p.connections ++
           [{ id := cid
              sourceId := prms.source
              targetId := prms.target
              sourceField := prms.sourceHandle
              targetField := handleFieldName prms.targetHandle
              relationshipType := RelType.oneToMany }]
         updatedAt := now1 },
       { p with
         connections := p.connections ++
           [{ id := cid
              sourceId := prms.source
              targetId := prms.target
              sourceField := prms.sourceHandle
              targetField := handleFieldName prms.targetHandle
              relationshipType := RelType.oneToMany }]
         tables := p.tables.map (fun x =>
           if x.id = st.id then
             { st with fields := st.fields.map (fun f =>
                 if f.name = prms.sourceHandle then
                   { f with foreignKey := some { tableId := prms.target, fieldName := handleFieldName prms.targetHandle } }
                 else f) }
           else x)
         updatedAt := now2 }] := by
  have hvc : validateConnection p.tables prms.source prms.target prms.sourceHandle
      (handleFieldName prms.targetHandle) = true := by
    unfold validateConnection
    rw [hst, htt]
    simp [hsf, htf]
  have hustval : validateTable { st with fields := st.fields.map (fun f =>
      if f.name = prms.sourceHandle then
        { f with foreignKey := some { tableId := prms.target, fieldName := handleFieldName prms.targetHandle } }
      else f) } = [] := by
    rw [validateTable_mapFields st _ (fun f => by
      by_cases hn : f.name = prms.sourceHandle
      · rw [if_pos hn]
        exact validateField_setFk f _
      · rw [if_neg hn])]
    exact hstval
  simp only [onConnect, hst, htt, hsf, htf, Bool.and_self, if_true,
    addConnection, hvc, updateTable, hustval, List.isEmpty_nil]

/-- Replacing the table with a matching id puts the replacement into the
mapped table list. -/
theorem mem_map_replace (ts : List Table) (st u : Table) (h : st ∈ ts) :
    u ∈ ts.map (fun x => if x.id = st.id then u else x) := by
  have hmem := List.mem_map_of_mem (fun x => if x.id = st.id then u else x) h
  simpa using hmem

/-- C2 (amended): a successful connect gesture applies two consecutive
snapshot transitions, not one atomic transition: the intermediate snapshot
already contains the new connection while the matching source field still
carries no foreign-key pointer, and only the final snapshot of the gesture
contains both the connection and the pointer. -/
theorem connect_two_transitions (p : Project) (prms : ConnectParams)
    (cid now1 now2 : String) (st tt : Table)
    (hst : p.tables.find? (fun t => t.id = prms.source) = some st)
    (htt : p.tables.find? (fun t => t.id = prms.target) = some tt)
    (hsf : st.fields.any (fun f => f.name = prms.sourceHandle) = true)
    (htf : tt.fields.any (fun f => f.name = handleFieldName prms.targetHandle) = true)
    (hstval : validateTable st = [])
    (hfk0 : ∀ t ∈ p.tables, t.id = prms.source →
        ∀ f ∈ t.fields, f.name = prms.sourceHandle → f.foreignKey = none) :
    ∃ p1 p2, onConnect p prms cid now1 now2 = [p, p1, p2] ∧
      (∃ c, c ∈ p1.connections ∧ c.id = cid) ∧
      (∀ t ∈ p1.tables, t.id = prms.source →
          ∀ f ∈ t.fields, f.name = prms.sourceHandle → f.foreignKey = none) ∧
      (∃ c, c ∈ p2.connections ∧ c.id = cid) ∧
      (∃ t, t ∈ p2.tables ∧ t.id = prms.source ∧ ∃ f, f ∈ t.fields ∧
          f.name = prms.sourceHandle ∧
          f.foreignKey = some { tableId := prms.target, fieldName := handleFieldName prms.targetHandle }) := by
  have hstid : st.id = prms.source := by simpa using List.find?_some hst
  have hstmem : st ∈ p.tables := List.mem_of_find?_eq_some hst
  refine ⟨_, _, onConnect_success_eq p prms cid now1 now2 st tt hst htt hsf htf hstval,
    ⟨_, List.mem_append_right _ (List.mem_singleton_self _), rfl⟩,
    hfk0,
    ⟨_, List.mem_append_right _ (List.mem_singleton_self _), rfl⟩,
    ?_⟩
  rcases List.any_eq_true.mp hsf with ⟨f0, hf0, hb⟩
  have hf0n : f0.name = prms.sourceHandle := by simpa using hb
  refine ⟨_, mem_map_replace p.tables st _ hstmem, hstid, ?_⟩
  refine ⟨_, List.mem_map_of_mem _ hf0, ?_, ?_⟩
  · rw [if_pos hf0n]
    exact hf0n
  · rw [if_pos hf0n]

/-- Witness for C2 at a concrete input. -/
theorem connect_two_transitions_witness :
    ∃ p1 p2, onConnect projPlain
        { source := "t2", target := "t1", sourceHandle := "user_id", targetHandle := "id-left" }
        "c1" "T1" "T2" = [projPlain, p1, p2] ∧
      (∃ c, c ∈ p1.connections ∧ c.id = "c1") ∧
      (∀ t ∈ p1.tables, t.id = "t2" →
          ∀ f ∈ t.fields, f.name = "user_id" → f.foreignKey = none) ∧
      (∃ c, c ∈ p2.connections ∧ c.id = "c1") ∧
      (∃ t, t ∈ p2.tables ∧ t.id = "t2" ∧ ∃ f, f ∈ t.fields ∧
          f.name = "user_id" ∧
          f.foreignKey = some { tableId := "t1", fieldName := handleFieldName "id-left" }) :=
  connect_two_transitions projPlain
    { source := "t2", target := "t1", sourceHandle := "user_id", targetHandle := "id-left" }
    "c1" "T1" "T2" tblOrdersPlain tblUsers
    (by decide) (by decide) (by decide) (by decide) (by decide) (by decide)

/-- C2 counterexample: on the example project the connect gesture's trace
contains a snapshot in which the new connection is present while the matching
source field carries no foreign-key pointer, so the connection and pointer are
not created as one atomic snapshot transition. -/
theorem connect_atomicity_counterexample :
    ¬(∀ q ∈ onConnect projPlain
          { source := "t2", target := "t1", sourceHandle := "user_id", targetHandle := "id-left" }
          "c1" "T1" "T2",
        ((∃ c, c ∈ q.connections ∧ c.id = "c1")
          ↔ (∃ t, t ∈ q.tables ∧ t.id = "t2" ∧ ∃ f, f ∈ t.fields ∧
               f.name = "user_id" ∧
               f.foreignKey = some { tableId := "t1", fieldName := "id" }))) := by
  decide

end DbCanvas
